import Mathlib

/-
Shallow embedding of the cgit status dashboard (internal/ui/status_tui.go,
internal/ui/branch_switcher.go, internal/git/operations.go).

Strings from the Go source are modelled as Lean String; where the source
scans string contents character by character (fuzzy matching), the text is
modelled as List Char.  The Go code indexes the haystack byte-wise and the
query rune-wise; over ASCII input (paths, branch names) these coincide, and
the embedding uses a single character type.
-/

namespace Cgit

/-- Embeds git.FileStatus (internal/git/operations.go). -/
structure FileStatus where
  path : String
  status : String
  staged : Bool
  workTree : Bool
deriving Repr, DecidableEq

/-- Embeds git.CommitInfo (internal/git/operations.go). -/
structure CommitInfo where
  hash : String
  message : String
  author : String
  date : String
deriving Repr, DecidableEq

/-- Embeds git.BranchInfo (internal/git/operations.go). -/
structure BranchInfo where
  name : String
  isRemote : Bool
  isCurrent : Bool
  tracking : String
deriving Repr, DecidableEq

/-- Embeds git.StashInfo (internal/git/operations.go). -/
structure StashInfo where
  index : Int
  message : String
  branch : String
  date : String
deriving Repr, DecidableEq

/-- Embeds git.RepoStatus (internal/git/operations.go). -/
structure RepoStatus where
  currentBranch : String
  ahead : Int
  behind : Int
  stagedFiles : List FileStatus
  unstagedFiles : List FileStatus
  lastCommit : CommitInfo
  branches : List BranchInfo
  stashes : List StashInfo
deriving Repr, DecidableEq

/-- Embeds ui.PanelType (status_tui.go). -/
inductive PanelType where
  | unstagedPanel
  | stagedPanel
  | branchesPanel
  | stashesPanel
  | diffPanel
  | commitPanel
deriving Repr, DecidableEq

/-- Embeds the state-machine-relevant fields of ui.StatusModel (status_tui.go).
Rendering state (styles, width/height, viewport internals) belongs to the
external terminal layer and is not part of the transition state. -/
structure StatusModel where
  repoStatus : Option RepoStatus
  currentPanel : PanelType
  selectedIndex : Nat
  showDiff : Bool
  diffContent : String
  commitValue : String
  showCommit : Bool
  quitting : Bool
  message : String
  isLoading : Bool
  loadingMsg : String
  showSearch : Bool
  searchValue : String
  searchQuery : String
  filteredIndices : List Nat
  searchSelected : Nat
deriving Repr, DecidableEq

/-- Key events, one constructor per case of the `switch msg.String()` in
StatusModel.Update; `char c` stands for any other single-character key
(which the focused text inputs insert). -/
inductive Key where
  | q
  | ctrlC
  | esc
  | r
  | enter
  | h
  | left
  | l
  | right
  | j
  | down
  | k
  | up
  | g
  | G
  | s
  | space
  | plus
  | minus
  | u
  | d
  | a
  | c
  | p
  | slash
  | ctrlD
  | pgdn
  | ctrlU
  | pgup
  | char (ch : Char)
  | other
deriving Repr, DecidableEq

/-- Messages consumed by StatusModel.Update (status_tui.go):
key presses plus the message types declared at the top of the file. -/
inductive Msg where
  | key (pressed : Key)
  | statusMsg (rs : Option RepoStatus)
  | diffMsg (s : String)
  | refreshMsg
  | loadingMsg (s : String)
  | fileStatusUpdateMsg (filePath : String) (staged : Bool)
  | errMsg (e : String)
  | strMsg (s : String)
deriving Repr, DecidableEq

/-- Commands returned by Update to the bubbletea runtime; each names the
model method (or closure) that will run off the event loop. -/
inductive Cmd where
  | quit
  | refreshStatus
  | emitLoading (s : String)
  | stageFile
  | unstageFile
  | discardChanges
  | stageAllFiles
  | push
  | performCommit (message : String)
  | showFileDiff
  | switchBranch (name : String)
  | deleteStash
  | stageFileFromSearch
  | unstageFileFromSearch
deriving Repr, DecidableEq

/-- Outcome of a Repository Gateway call (the git.GitRepo methods): success
or a descriptive error. -/
inductive GitResult where
  | ok
  | fail (e : String)
deriving Repr, DecidableEq

/-- strings.ToLower on the character level (ASCII). -/
def toLowerStr (s : List Char) : List Char := s.map Char.toLower

/-- Embeds fuzzyMatch (status_tui.go; identical copies in branch_switcher.go
and list_component.go): for each query character scan the remaining text
left to right, consuming characters until it is found; fail if the text is
exhausted. -/
def fuzzyMatch : List Char → List Char → Bool
  | _, [] => true
  | [], _ :: _ => false
  | t :: ts, qc :: qs => if t = qc then fuzzyMatch ts qs else fuzzyMatch ts (qc :: qs)

/-- Index-collecting loop of performSearch: `for i, item := range items`
appending `i` whenever the test matches, starting from index `start`. -/
def filterIndicesFrom {α : Type} (test : α → Bool) : List α → Nat → List Nat
  | [], _ => []
  | x :: xs, start =>
    if test x then start :: filterIndicesFrom test xs (start + 1)
    else filterIndicesFrom test xs (start + 1)

/-- Embeds performSearch (status_tui.go) acting on one panel's item strings:
empty query clears the filtered indices; otherwise both query and item are
lowercased and matched with fuzzyMatch.  Returns (filteredIndices,
searchSelected). -/
def performSearch (items : List (List Char)) (query : List Char) : List Nat × Nat :=
  if query = [] then ([], 0)
  else
    let loweredQuery := toLowerStr query
    (filterIndicesFrom (fun item => fuzzyMatch (toLowerStr item) loweredQuery) items 0, 0)

/-- Embeds adjustScrolling (branch_switcher.go) as a function of the fields
it reads and writes; all Go ints are modelled as Int. -/
def adjustScrolling (currentIndex scrollOffset visibleLines totalItems : Int) : Int :=
  if visibleLines ≤ 0 then scrollOffset
  else
    let o1 := if currentIndex ≥ scrollOffset + visibleLines
              then currentIndex - visibleLines + 1 else scrollOffset
    let o2 := if currentIndex < o1 then currentIndex else o1
    let maxOffset := if totalItems - visibleLines < 0 then 0 else totalItems - visibleLines
    let o3 := if o2 > maxOffset then maxOffset else o2
    if o3 < 0 then 0 else o3

/-- Character inserted by a key when a text input is focused (bubbles
textinput inserts printable single-character keys and ignores the rest). -/
def keyChar : Key → Option Char
  | .q => some 'q'
  | .r => some 'r'
  | .h => some 'h'
  | .l => some 'l'
  | .j => some 'j'
  | .k => some 'k'
  | .g => some 'g'
  | .G => some 'G'
  | .s => some 's'
  | .space => some ' '
  | .plus => some '+'
  | .minus => some '-'
  | .u => some 'u'
  | .d => some 'd'
  | .a => some 'a'
  | .c => some 'c'
  | .p => some 'p'
  | .slash => some '/'
  | .char ch => some ch
  | _ => none

/-- textinput.Model.Update restricted to the value it stores. -/
def textUpdate (v : String) (pressed : Key) : String :=
  match keyChar pressed with
  | some ch => v.push ch
  | none => v

/-- Embeds getCurrentFileCount (status_tui.go). -/
def getCurrentFileCount (m : StatusModel) : Nat :=
  match m.repoStatus with
  | none => 0
  | some rs =>
    match m.currentPanel with
    | .unstagedPanel => rs.unstagedFiles.length
    | .stagedPanel => rs.stagedFiles.length
    | .branchesPanel => rs.branches.length
    | .stashesPanel => rs.stashes.length
    | _ => 0

/-- Embeds moveDown (status_tui.go). -/
def moveDown (m : StatusModel) : StatusModel :=
  let count := getCurrentFileCount m
  if 0 < count then { m with selectedIndex := (m.selectedIndex + 1) % count } else m

/-- Embeds moveUp (status_tui.go).  The Go source computes
(selectedIndex - 1 + count) % count over int; with selectedIndex ≥ 0 and
count ≥ 1 this equals (selectedIndex + count - 1) % count in Nat. -/
def moveUp (m : StatusModel) : StatusModel :=
  let count := getCurrentFileCount m
  if 0 < count then { m with selectedIndex := (m.selectedIndex + count - 1) % count } else m

/-- Panel reached by "h"/"left" (the switch in Update, status_tui.go):
panels without a case keep the current panel. -/
def panelLeft : PanelType → PanelType
  | .stagedPanel => .unstagedPanel
  | .branchesPanel => .stagedPanel
  | .stashesPanel => .branchesPanel
  | other => other

/-- Panel reached by "l"/"right" (the switch in Update, status_tui.go). -/
def panelRight : PanelType → PanelType
  | .unstagedPanel => .stagedPanel
  | .stagedPanel => .branchesPanel
  | .branchesPanel => .stashesPanel
  | other => other

/-- The find-remove-break loop of handleFileStatusUpdate: locate the first
entry with the given path; return it together with the list with that entry
removed (Go slice surgery append(l[:i], l[i+1:]...)). -/
def removeFirst (p : String) : List FileStatus → Option (FileStatus × List FileStatus)
  | [] => none
  | f :: fs =>
    if f.path = p then some (f, fs)
    else
      match removeFirst p fs with
      | none => none
      | some (e, rest) => some (e, f :: rest)

/-- Embeds handleFileStatusUpdate (status_tui.go): optimistic local move of
one file between the unstaged and staged lists, with the cursor clamp
`if selectedIndex >= len { selectedIndex = max(0, len-1) }` (truncated Nat
subtraction coincides with Go's max(0, len-1)). -/
def handleFileStatusUpdate (m : StatusModel) (filePath : String) (staged : Bool) : StatusModel :=
  match m.repoStatus with
  | none => m
  | some rs =>
    if staged then
      match removeFirst filePath rs.unstagedFiles with
      | none => m
      | some (e, rest) =>
        { m with
          repoStatus := some { rs with
            unstagedFiles := rest,
            stagedFiles := rs.stagedFiles ++ [{ e with staged := true, workTree := false }] },
          selectedIndex :=
            if rest.length ≤ m.selectedIndex then rest.length - 1 else m.selectedIndex }
    else
      match removeFirst filePath rs.stagedFiles with
      | none => m
      | some (e, rest) =>
        { m with
          repoStatus := some { rs with
            stagedFiles := rest,
            unstagedFiles := rs.unstagedFiles ++ [{ e with staged := false, workTree := true }] },
          selectedIndex :=
            if rest.length ≤ m.selectedIndex then rest.length - 1 else m.selectedIndex }

/-- RepoStatus used when the source dereferences m.repoStatus; the Go code
assumes a loaded status at these points. -/
def emptyRepoStatus : RepoStatus :=
  { currentBranch := "", ahead := 0, behind := 0, stagedFiles := [], unstagedFiles := [],
    lastCommit := { hash := "", message := "", author := "", date := "" },
    branches := [], stashes := [] }

/-- m.repoStatus with the Go nil dereference made total. -/
def statusOr (m : StatusModel) : RepoStatus := m.repoStatus.getD emptyRepoStatus

/-- Embeds the StatusModel method performSearch (status_tui.go): filter the
active panel's items (paths, branch names, or stash message/branch) and
reset the search selection. -/
def performSearchModel (m : StatusModel) : StatusModel :=
  if m.searchQuery = "" then { m with filteredIndices := [], searchSelected := 0 }
  else
    let loweredQuery := toLowerStr m.searchQuery.toList
    let matchStr := fun (s : String) => fuzzyMatch (toLowerStr s.toList) loweredQuery
    let rs := statusOr m
    let idxs :=
      match m.currentPanel with
      | .unstagedPanel => filterIndicesFrom (fun f => matchStr f.path) rs.unstagedFiles 0
      | .stagedPanel => filterIndicesFrom (fun f => matchStr f.path) rs.stagedFiles 0
      | .branchesPanel => filterIndicesFrom (fun b => matchStr b.name) rs.branches 0
      | .stashesPanel =>
        filterIndicesFrom (fun st => matchStr st.message || matchStr st.branch) rs.stashes 0
      | _ => m.filteredIndices
    { m with filteredIndices := idxs, searchSelected := 0 }

/-- Condition guarding "c" in Update:
m.repoStatus != nil && len(m.repoStatus.StagedFiles) > 0. -/
def hasStagedFiles (m : StatusModel) : Bool :=
  match m.repoStatus with
  | none => false
  | some rs => 0 < rs.stagedFiles.length

/-- Code exectued after the key switch in Update (status_tui.go): the key
cases that do not return fall through here; the focused text input consumes
the key (re-running performSearch when the search value changed), and
otherwise the message goes to the viewport, which owns no transition state. -/
def afterKey (m : StatusModel) (pressed : Key) : StatusModel × List Cmd :=
  if m.showCommit then ({ m with commitValue := textUpdate m.commitValue pressed }, [])
  else if m.showSearch then
    let v := textUpdate m.searchValue pressed
    if v ≠ m.searchValue then
      (performSearchModel { m with searchValue := v, searchQuery := v }, [])
    else (m, [])
  else (m, [])

/-- Embeds StatusModel.Update (status_tui.go).  Cases of the Go key switch
that return do so directly; cases that fall through continue in afterKey. -/
def update (m : StatusModel) : Msg → StatusModel × List Cmd
  | .key pressed =>
    if m.quitting then (m, [Cmd.quit])
    else
      match pressed with
      | .q | .ctrlC => ({ m with quitting := true }, [Cmd.quit])
      | .esc =>
        if m.showSearch then
          ({ m with showSearch := false, searchValue := "", searchQuery := "",
                    filteredIndices := [], searchSelected := 0 }, [])
        else if m.showCommit then
          ({ m with showCommit := false, commitValue := "" }, [])
        else if m.showDiff then
          ({ m with showDiff := false, diffContent := "" }, [])
        else afterKey m .esc
      | .r =>
        if !m.showCommit && !m.showSearch then
          (m, [Cmd.emitLoading "Refreshing status...", Cmd.refreshStatus])
        else afterKey m .r
      | .enter =>
        if m.showSearch then
          let m1 :=
            if m.filteredIndices.length > 0 ∧ m.searchSelected < m.filteredIndices.length then
              { m with selectedIndex := m.filteredIndices.getD m.searchSelected 0 }
            else m
          ({ m1 with showSearch := false, searchValue := "" }, [])
        else if m.showCommit then
          if m.commitValue ≠ "" then (m, [Cmd.performCommit m.commitValue])
          else afterKey m .enter
        else if m.currentPanel = .branchesPanel ∧
                m.selectedIndex < (statusOr m).branches.length then
          match (statusOr m).branches.get? m.selectedIndex with
          | some branch =>
            if !branch.isCurrent && !branch.isRemote then (m, [Cmd.switchBranch branch.name])
            else afterKey m .enter
          | none => afterKey m .enter
        else (m, [Cmd.showFileDiff])
      | .h | .left =>
        if !m.showCommit && !m.showSearch then
          ({ m with currentPanel := panelLeft m.currentPanel, selectedIndex := 0 }, [])
        else afterKey m pressed
      | .l | .right =>
        if !m.showCommit && !m.showSearch then
          ({ m with currentPanel := panelRight m.currentPanel, selectedIndex := 0 }, [])
        else afterKey m pressed
      | .j | .down =>
        if m.showDiff then afterKey m pressed
        else if m.showSearch then
          let m1 :=
            if 0 < m.filteredIndices.length then
              { m with searchSelected := (m.searchSelected + 1) % m.filteredIndices.length }
            else m
          afterKey m1 pressed
        else if !m.showCommit then afterKey (moveDown m) pressed
        else afterKey m pressed
      | .k | .up =>
        if m.showDiff then afterKey m pressed
        else if m.showSearch then
          let m1 :=
            if 0 < m.filteredIndices.length then
              { m with searchSelected :=
                  (m.searchSelected + m.filteredIndices.length - 1) % m.filteredIndices.length }
            else m
          afterKey m1 pressed
        else if !m.showCommit then afterKey (moveUp m) pressed
        else afterKey m pressed
      | .g =>
        if m.showDiff then afterKey m .g
        else if !m.showCommit && !m.showSearch then afterKey { m with selectedIndex := 0 } .g
        else afterKey m .g
      | .G =>
        if m.showDiff then afterKey m .G
        else if !m.showCommit && !m.showSearch then
          let count := getCurrentFileCount m
          afterKey (if 0 < count then { m with selectedIndex := count - 1 } else m) .G
        else afterKey m .G
      | .s | .space =>
        if !m.showCommit && !m.showSearch then (m, [Cmd.stageFile])
        else afterKey m pressed
      | .plus =>
        if !m.showCommit then
          if m.showSearch then (m, [Cmd.stageFileFromSearch]) else (m, [Cmd.stageFile])
        else afterKey m .plus
      | .minus =>
        if !m.showCommit then
          if m.showSearch then (m, [Cmd.unstageFileFromSearch]) else (m, [Cmd.unstageFile])
        else afterKey m .minus
      | .u =>
        if !m.showCommit && !m.showSearch then (m, [Cmd.unstageFile])
        else afterKey m .u
      | .d =>
        if !m.showCommit && !m.showSearch then
          if m.currentPanel = .stashesPanel then (m, [Cmd.deleteStash])
          else (m, [Cmd.discardChanges])
        else afterKey m .d
      | .a =>
        if !m.showCommit && !m.showSearch then (m, [Cmd.stageAllFiles])
        else afterKey m .a
      | .c =>
        if !m.showCommit && !m.showSearch then
          if hasStagedFiles m then ({ m with showCommit := true, commitValue := "" }, [])
          else afterKey m .c
        else afterKey m .c
      | .p =>
        if !m.showCommit && !m.showSearch then (m, [Cmd.push])
        else afterKey m .p
      | .slash =>
        if !m.showCommit && !m.showDiff then
          ({ m with showSearch := true, searchValue := "" }, [])
        else afterKey m .slash
      | .ctrlD | .pgdn | .ctrlU | .pgup => afterKey m pressed
      | .char ch => afterKey m (.char ch)
      | .other => afterKey m .other
  | .statusMsg rs =>
    let m1 := { m with repoStatus := rs, isLoading := false }
    let count := getCurrentFileCount m1
    (if count ≤ m1.selectedIndex then { m1 with selectedIndex := count - 1 } else m1, [])
  | .diffMsg s => ({ m with diffContent := s, showDiff := true }, [])
  | .refreshMsg =>
    ({ m with isLoading := true, loadingMsg := "Refreshing status..." }, [Cmd.refreshStatus])
  | .loadingMsg s => ({ m with isLoading := true, loadingMsg := s }, [])
  | .fileStatusUpdateMsg p st => (handleFileStatusUpdate m p st, [])
  | .errMsg e => ({ m with message := e }, [Cmd.refreshStatus])
  | .strMsg s =>
    if s = "commit_success" then
      ({ m with showCommit := false, commitValue := "", message := "Commit successful!" },
       [Cmd.refreshStatus])
    else if s = "push_success" then
      ({ m with message := "Push successful!" }, [Cmd.refreshStatus])
    else (m, [])

/-- One event-loop step, state part. -/
def stepM (m : StatusModel) (msg : Msg) : StatusModel := (update m msg).1

/-- Embeds the command refreshStatus (status_tui.go): a failed
GetRepositoryStatus yields statusMsg(nil); success carries the fetched
snapshot. -/
def refreshStatus (g : GitResult) (fetched : RepoStatus) : Msg :=
  match g with
  | .fail _ => .statusMsg none
  | .ok => .statusMsg (some fetched)

/-- Embeds the command stageFile (status_tui.go); none models the Go
`return nil` when the guards fail. -/
def stageFile (m : StatusModel) (g : GitResult) : Option Msg :=
  match m.repoStatus with
  | none => none
  | some rs =>
    if m.currentPanel ≠ .unstagedPanel ∨ rs.unstagedFiles.length ≤ m.selectedIndex then none
    else
      match rs.unstagedFiles.get? m.selectedIndex with
      | none => none
      | some file =>
        match g with
        | .fail e => some (.errMsg ("failed to stage file: " ++ e))
        | .ok => some (.fileStatusUpdateMsg file.path true)

/-- Embeds the command unstageFile (status_tui.go). -/
def unstageFile (m : StatusModel) (g : GitResult) : Option Msg :=
  match m.repoStatus with
  | none => none
  | some rs =>
    if m.currentPanel ≠ .stagedPanel ∨ rs.stagedFiles.length ≤ m.selectedIndex then none
    else
      match rs.stagedFiles.get? m.selectedIndex with
      | none => none
      | some file =>
        match g with
        | .fail e => some (.errMsg ("failed to unstage file: " ++ e))
        | .ok => some (.fileStatusUpdateMsg file.path false)

/-- Embeds the command discardChanges (status_tui.go): failed guards return
refreshMsg, a failed gateway call an error, success refreshMsg. -/
def discardChanges (m : StatusModel) (g : GitResult) : Msg :=
  match m.repoStatus with
  | none => .refreshMsg
  | some rs =>
    if m.currentPanel ≠ .unstagedPanel ∨ rs.unstagedFiles.length ≤ m.selectedIndex then
      .refreshMsg
    else
      match g with
      | .fail e => .errMsg ("failed to discard changes: " ++ e)
      | .ok => .refreshMsg

/-- Embeds the command stageAllFiles (status_tui.go): both the error branch
and the success branch return refreshMsg (the error is dropped). -/
def stageAllFiles (g : GitResult) : Msg :=
  match g with
  | .fail _ => .refreshMsg
  | .ok => .refreshMsg

/-- Embeds the closure returned by pushChanges (status_tui.go). -/
def pushChanges (g : GitResult) : Msg :=
  match g with
  | .fail e => .errMsg ("push failed: " ++ e)
  | .ok => .strMsg "push_success"

/-- Embeds the closure returned by performCommit (status_tui.go). -/
def performCommit (g : GitResult) : Msg :=
  match g with
  | .fail e => .errMsg ("commit failed: " ++ e)
  | .ok => .strMsg "commit_success"

/-- Embeds the closure returned by switchBranch (status_tui.go). -/
def switchBranch (g : GitResult) : Msg :=
  match g with
  | .fail e => .errMsg ("failed to switch branch: " ++ e)
  | .ok => .refreshMsg

/-- Embeds the command deleteStash (status_tui.go). -/
def deleteStash (m : StatusModel) (g : GitResult) : Option Msg :=
  match m.repoStatus with
  | none => none
  | some rs =>
    if m.currentPanel ≠ .stashesPanel ∨ rs.stashes.length ≤ m.selectedIndex then none
    else
      match g with
      | .fail e => some (.errMsg ("failed to delete stash: " ++ e))
      | .ok => some .refreshMsg

/-- Branch information text built by showFileDiff for the branches panel. -/
def branchInfoText (b : BranchInfo) : String :=
  let typeStr := if b.isRemote then "Remote" else "Local"
  let curStr := if b.isCurrent then "Yes" else "No"
  let base := "Branch: " ++ b.name ++ "\n" ++ "Type: " ++ typeStr ++ "\n" ++
    "Current: " ++ curStr ++ "\n"
  if b.tracking ≠ "" then base ++ "Tracking: " ++ b.tracking ++ "\n" else base

/-- Stash information text built by showFileDiff for the stashes panel. -/
def stashInfoText (st : StashInfo) : String :=
  "Stash: " ++ st.message ++ "\n" ++ "Branch: " ++ st.branch ++ "\n" ++
    "Date: " ++ st.date ++ "\n" ++ "Index: " ++ toString st.index ++ "\n"

/-- Embeds the command showFileDiff (status_tui.go); for the file panels the
gateway GetDiff outcome is either the diff text or an error rendered as diff
content. -/
def showFileDiff (m : StatusModel) (g : GitResult) (diffText : String) : Msg :=
  match m.repoStatus with
  | none => .refreshMsg
  | some rs =>
    match m.currentPanel with
    | .unstagedPanel =>
      if m.selectedIndex < rs.unstagedFiles.length then
        match g with
        | .fail e => .diffMsg ("Error getting diff: " ++ e)
        | .ok => .diffMsg diffText
      else .refreshMsg
    | .stagedPanel =>
      if m.selectedIndex < rs.stagedFiles.length then
        match g with
        | .fail e => .diffMsg ("Error getting diff: " ++ e)
        | .ok => .diffMsg diffText
      else .refreshMsg
    | .branchesPanel =>
      match rs.branches.get? m.selectedIndex with
      | some b => .diffMsg (branchInfoText b)
      | none => .refreshMsg
    | .stashesPanel =>
      match rs.stashes.get? m.selectedIndex with
      | some st => .diffMsg (stashInfoText st)
      | none => .refreshMsg
    | _ => .refreshMsg

/-- Embeds the command stageFileFromSearch (status_tui.go). -/
def stageFileFromSearch (m : StatusModel) (g : GitResult) : Option Msg :=
  match m.repoStatus with
  | none => none
  | some rs =>
    if m.currentPanel ≠ .unstagedPanel ∨ m.filteredIndices.length = 0 ∨
       m.filteredIndices.length ≤ m.searchSelected then none
    else
      let actualIndex := m.filteredIndices.getD m.searchSelected 0
      if rs.unstagedFiles.length ≤ actualIndex then none
      else
        match rs.unstagedFiles.get? actualIndex with
        | none => none
        | some file =>
          match g with
          | .fail e => some (.errMsg ("failed to stage file: " ++ e))
          | .ok => some (.fileStatusUpdateMsg file.path true)

/-- Embeds the command unstageFileFromSearch (status_tui.go). -/
def unstageFileFromSearch (m : StatusModel) (g : GitResult) : Option Msg :=
  match m.repoStatus with
  | none => none
  | some rs =>
    if m.currentPanel ≠ .stagedPanel ∨ m.filteredIndices.length = 0 ∨
       m.filteredIndices.length ≤ m.searchSelected then none
    else
      let actualIndex := m.filteredIndices.getD m.searchSelected 0
      if rs.stagedFiles.length ≤ actualIndex then none
      else
        match rs.stagedFiles.get? actualIndex with
        | none => none
        | some file =>
          match g with
          | .fail e => some (.errMsg ("failed to unstage file: " ++ e))
          | .ok => some (.fileStatusUpdateMsg file.path false)

/-- Embeds NewStatusModel (status_tui.go): the transition-state fields as
initialised there (Go zero values plus the explicit assignments). -/
def NewStatusModel : StatusModel :=
  { repoStatus := none, currentPanel := .unstagedPanel, selectedIndex := 0,
    showDiff := false, diffContent := "", commitValue := "", showCommit := false,
    quitting := false, message := "", isLoading := false, loadingMsg := "",
    showSearch := false, searchValue := "", searchQuery := "",
    filteredIndices := [], searchSelected := 0 }

/-- Paths of a file list (the key by which optimistic moves look entries up). -/
def pathsOf (l : List FileStatus) : List String := l.map (fun f => f.path)

/-- Spec item list of the fuzzy-filter example in section 8 of the spec. -/
def c2Items : List (List Char) := ["README.md".toList, "main.go".toList, "remote.go".toList]

/-- Spec query of the fuzzy-filter example. -/
def c2Query : List Char := "rmo".toList

/-- Unstaged entry {"a.txt","M"} of the stage scenario. -/
def fileA : FileStatus := { path := "a.txt", status := "M", staged := false, workTree := true }

/-- Unstaged entry {"b.txt","?"} of the stage scenario. -/
def fileB : FileStatus := { path := "b.txt", status := "?", staged := false, workTree := true }

/-- Repository snapshot of the stage scenario: Unstaged = [a.txt, b.txt],
Staged = []. -/
def rsScenario : RepoStatus :=
  { emptyRepoStatus with unstagedFiles := [fileA, fileB], stagedFiles := [] }

/-- Model in Normal mode on the unstaged panel holding rsScenario, cursor on
the second entry. -/
def mScenario : StatusModel :=
  { NewStatusModel with repoStatus := some rsScenario, selectedIndex := 1 }

/-- Snapshot used by the round-trip witness: disjoint unstaged and staged
lists. -/
def rsRound : RepoStatus :=
  { emptyRepoStatus with
    unstagedFiles := [{ path := "x.go", status := "M", staged := false, workTree := true },
                      { path := "y.go", status := "?", staged := false, workTree := true }],
    stagedFiles := [{ path := "z.go", status := "A", staged := true, workTree := false }] }

/-- Model holding rsRound. -/
def mRound : StatusModel := { NewStatusModel with repoStatus := some rsRound }

/-- Snapshot with two unstaged files a and b and nothing staged, used by the
stale-search-cursor trace. -/
def rsTwo : RepoStatus :=
  { emptyRepoStatus with
    unstagedFiles := [{ path := "a", status := "M", staged := false, workTree := true },
                      { path := "b", status := "M", staged := false, workTree := true }] }

/-- Event trace: load the snapshot, open search, type "b" (filtered indices
become [1]), stage the match from search (the dispatched command succeeds
and re-enters as fileStatusUpdateMsg), then confirm the stale search
selection with enter. -/
def staleTrace : List Msg :=
  [.statusMsg (some rsTwo), .key .slash, .key (.char 'b'), .key .plus,
   .fileStatusUpdateMsg "b" true, .key .enter]

/-- State reached by the stale-search trace from the initial model. -/
def staleFinal : StatusModel := staleTrace.foldl stepM NewStatusModel

/-- State just before the "+" press in the stale-search trace. -/
def staleBeforePlus : StatusModel := (staleTrace.take 3).foldl stepM NewStatusModel

/-- Model in Normal mode on the stashes panel (end of the panel order). -/
def mStashes : StatusModel :=
  { NewStatusModel with repoStatus := some rsTwo, currentPanel := .stashesPanel,
                        selectedIndex := 0 }

/-- Model in Normal mode on the staged panel holding rsRound. -/
def mStagedPanel : StatusModel :=
  { NewStatusModel with repoStatus := some rsRound, currentPanel := .stagedPanel,
                        selectedIndex := 0 }

/-- Model in commit mode with an empty commit message. -/
def mCommitEmpty : StatusModel :=
  { NewStatusModel with repoStatus := some rsRound, showCommit := true, commitValue := "" }

/-- Model in Normal mode whose snapshot has no staged files. -/
def mNoStaged : StatusModel := { NewStatusModel with repoStatus := some rsTwo }

/-- The greedy left-to-right scan of fuzzyMatch succeeds exactly when the
query is a subsequence of the text. -/
theorem fuzzyMatch_iff_sublist (text query : List Char) :
    fuzzyMatch text query = true ↔ query.Sublist text := by
  induction text generalizing query with
  | nil =>
    cases query with
    | nil => simp [fuzzyMatch]
    | cons qc qs => simp [fuzzyMatch]
  | cons t ts ih =>
    cases query with
    | nil => simp [fuzzyMatch]
    | cons qc qs =>
      by_cases h : t = qc
      · subst h
        have hstep : fuzzyMatch (t :: ts) (t :: qs) = fuzzyMatch ts qs := by
          simp [fuzzyMatch]
        rw [hstep, ih]
        exact List.cons_sublist_cons.symm
      · simp only [fuzzyMatch, if_neg h]
        rw [ih]
        constructor
        · intro hs
          exact hs.cons t
        · intro hs
          rcases List.cons_sublist_cons'.mp hs with h1 | ⟨h2, _⟩
          · exact h1
          · exact absurd h2.symm h

/-- Every index produced by filterIndicesFrom is at least the start index. -/
theorem le_of_mem_filterIndicesFrom {α : Type} (test : α → Bool) (xs : List α)
    (start j : Nat) (hj : j ∈ filterIndicesFrom test xs start) : start ≤ j := by
  induction xs generalizing start with
  | nil => simp [filterIndicesFrom] at hj
  | cons x xs ih =>
    simp only [filterIndicesFrom] at hj
    by_cases h : test x
    · rw [if_pos h] at hj
      rcases List.mem_cons.mp hj with rfl | hj
      · exact Nat.le_refl _
      · have := ih (start + 1) hj
        omega
    · rw [if_neg h] at hj
      have := ih (start + 1) hj
      omega

/-- The indices produced by filterIndicesFrom are strictly increasing. -/
theorem pairwise_filterIndicesFrom {α : Type} (test : α → Bool) (xs : List α)
    (start : Nat) : (filterIndicesFrom test xs start).Pairwise (· < ·) := by
  induction xs generalizing start with
  | nil => simp [filterIndicesFrom]
  | cons x xs ih =>
    simp only [filterIndicesFrom]
    by_cases h : test x
    · rw [if_pos h]
      refine List.Pairwise.cons ?_ (ih (start + 1))
      intro j hj
      have := le_of_mem_filterIndicesFrom test xs (start + 1) j hj
      omega
    · rw [if_neg h]
      exact ih (start + 1)

/-- Membership in the filterIndicesFrom output characterised by the item
found at the corresponding offset. -/
theorem mem_filterIndicesFrom {α : Type} (test : α → Bool) (xs : List α)
    (start j : Nat) :
    j ∈ filterIndicesFrom test xs start ↔
      ∃ k x, xs.get? k = some x ∧ test x = true ∧ j = start + k := by
  induction xs generalizing start with
  | nil => simp [filterIndicesFrom]
  | cons x xs ih =>
    simp only [filterIndicesFrom]
    by_cases h : test x
    · rw [if_pos h]
      simp only [List.mem_cons, ih]
      constructor
      · rintro (rfl | ⟨k, y, hget, ht, rfl⟩)
        · exact ⟨0, x, rfl, h, by omega⟩
        · exact ⟨k + 1, y, hget, ht, by omega⟩
      · rintro ⟨k, y, hget, ht, rfl⟩
        cases k with
        | zero => left; omega
        | succ k =>
          right
          exact ⟨k, y, hget, ht, by omega⟩
    · rw [if_neg h]
      rw [ih]
      constructor
      · rintro ⟨k, y, hget, ht, rfl⟩
        exact ⟨k + 1, y, hget, ht, by omega⟩
      · rintro ⟨k, y, hget, ht, rfl⟩
        cases k with
        | zero =>
          exfalso
          simp only [List.get?] at hget
          cases hget
          exact absurd ht (by simp [h])
        | succ k =>
          exact ⟨k, y, hget, ht, by omega⟩

/-- C1 (amended): for a nonempty query, the fuzzy filter returns exactly the
original indices of the items of which the lowercased query is a subsequence
of the lowercased item, in strictly increasing (original) order, and resets
the search selection to 0.  (For the empty query the code clears the index
list instead of listing every index; see the counterexample.) -/
theorem C1_search_filter (items : List (List Char)) (query : List Char) (hq : query ≠ []) :
    ((performSearch items query).1.Pairwise (· < ·)) ∧
    (∀ j, j ∈ (performSearch items query).1 ↔
      ∃ item, items.get? j = some item ∧ (toLowerStr query).Sublist (toLowerStr item)) ∧
    (performSearch items query).2 = 0 := by
  simp only [performSearch, if_neg hq]
  refine ⟨pairwise_filterIndicesFrom _ _ _, ?_, by trivial⟩
  intro j
  rw [mem_filterIndicesFrom]
  constructor
  · rintro ⟨k, item, hget, ht, rfl⟩
    refine ⟨item, by simpa using hget, ?_⟩
    exact (fuzzyMatch_iff_sublist _ _).mp ht
  · rintro ⟨item, hget, hs⟩
    exact ⟨j, item, hget, (fuzzyMatch_iff_sublist _ _).mpr hs, by omega⟩

/-- C1 witness: the theorem applied to items ["ab","b"] with query "b". -/
theorem C1_search_filter_witness :
    ("b".toList ≠ ([] : List Char)) ∧
    (((performSearch ["ab".toList, "b".toList] "b".toList).1.Pairwise (· < ·)) ∧
     (∀ j, j ∈ (performSearch ["ab".toList, "b".toList] "b".toList).1 ↔
       ∃ item, ["ab".toList, "b".toList].get? j = some item ∧
         (toLowerStr "b".toList).Sublist (toLowerStr item)) ∧
     (performSearch ["ab".toList, "b".toList] "b".toList).2 = 0) :=
  ⟨by decide, C1_search_filter ["ab".toList, "b".toList] "b".toList (by decide)⟩

/-- C1 counterexample: the empty query matches the item "a" (fuzzyMatch is
true), yet the filter result for the empty query is the empty index list,
not the list of all indices. -/
theorem C1_empty_query_cex :
    fuzzyMatch "a".toList [] = true ∧ (performSearch ["a".toList] []).1 = [] := by
  exact ⟨rfl, rfl⟩

/-- C2 counterexample: index 0 ("README.md") is not in the filter result for
query "rmo" — after consuming r and m there is no o anywhere in
"readme.md". -/
theorem C2_readme_not_matched : ¬ (0 ∈ (performSearch c2Items c2Query).1) := by decide

/-- C2 (amended): the fuzzy filter on ["README.md","main.go","remote.go"]
with query "rmo" matches exactly "remote.go": the result is index list [2]
with the search selection reset to 0. -/
theorem C2_rmo_matches : performSearch c2Items c2Query = ([2], 0) := by decide

/-- C3: with a positive window, adjustScrolling computes the advance/retreat
rule clamped into [0, max 0 (totalItems - visibleLines)], and whenever the
cursor is a valid index the adjusted offset keeps the cursor inside the
visible window. -/
theorem C3_adjustScrolling (c o v t : Int) (hv : 0 < v) :
    adjustScrolling c o v t =
      max 0 (min (if o + v ≤ c then c - v + 1 else if c < o then c else o)
        (max 0 (t - v))) ∧
    (0 ≤ adjustScrolling c o v t ∧ adjustScrolling c o v t ≤ max 0 (t - v)) ∧
    (0 ≤ c → c < t →
      adjustScrolling c o v t ≤ c ∧ c < adjustScrolling c o v t + v) := by
  simp only [adjustScrolling]
  split_ifs <;> omega

/-- C3 witness: the theorem applied at cursor 5, offset 0, window 3, 10
items: the window must advance and the cursor stays visible. -/
theorem C3_adjustScrolling_witness :
    ((0 : Int) < 3 ∧ (0 : Int) ≤ 5 ∧ (5 : Int) < 10) ∧
    (adjustScrolling 5 0 3 10 ≤ 5 ∧ 5 < adjustScrolling 5 0 3 10 + 3) :=
  ⟨by norm_num, (C3_adjustScrolling 5 0 3 10 (by norm_num)).2.2 (by norm_num) (by norm_num)⟩

/-- C10: cursor navigation wraps cyclically: with n items, moveDown adds 1
and moveUp subtracts 1 modulo n (down from n-1 reaches 0, up from 0 reaches
n-1), and on an empty list both moves leave the model unchanged. -/
theorem C10_wraparound (m : StatusModel) (n : Nat) (h : getCurrentFileCount m = n) :
    (0 < n → (moveDown m).selectedIndex = (m.selectedIndex + 1) % n ∧
             (moveUp m).selectedIndex = (m.selectedIndex + n - 1) % n) ∧
    (0 < n → m.selectedIndex = n - 1 → (moveDown m).selectedIndex = 0) ∧
    (0 < n → m.selectedIndex = 0 → (moveUp m).selectedIndex = n - 1) ∧
    (n = 0 → moveDown m = m ∧ moveUp m = m) := by
  refine ⟨fun hn => ⟨?_, ?_⟩, fun hn hsel => ?_, fun hn hsel => ?_,
    fun h0 => ⟨?_, ?_⟩⟩
  · simp [moveDown, h, hn]
  · simp [moveUp, h, hn]
  · have h1 : n - 1 + 1 = n := by omega
    simp [moveDown, h, hn, hsel, h1, Nat.mod_self]
  · have h2 : n - 1 < n := by omega
    simp [moveUp, h, hn, hsel, Nat.mod_eq_of_lt h2]
  · simp [moveDown, h, h0]
  · simp [moveUp, h, h0]

/-- C10 witness: the theorem applied to a model on the unstaged panel with
two files and the cursor at 0: moving up wraps to index 1. -/
theorem C10_wraparound_witness :
    (getCurrentFileCount mNoStaged = 2 ∧ 0 < 2 ∧ mNoStaged.selectedIndex = 0) ∧
    (moveUp mNoStaged).selectedIndex = 2 - 1 :=
  ⟨by decide, (C10_wraparound mNoStaged 2 (by decide)).2.2.1 (by decide) (by decide)⟩

/-- C6: with no staged files (or no loaded status), the "c" key leaves the
model unchanged and dispatches nothing, and in commit mode the enter key
with an empty message leaves the model unchanged and dispatches nothing. -/
theorem C6_commit_guards (m : StatusModel) (hq : m.quitting = false)
    (hc : m.showCommit = false) (hs : m.showSearch = false)
    (hstaged : hasStagedFiles m = false) :
    update m (.key .c) = (m, []) ∧
    (∀ m2 : StatusModel, m2.quitting = false → m2.showSearch = false →
      m2.showCommit = true → m2.commitValue = "" →
      update m2 (.key .enter) = (m2, [])) := by
  constructor
  · simp [update, hq, hc, hs, hstaged, afterKey]
  · intro m2 hq2 hs2 hc2 hv2
    obtain ⟨rs, cp, si, sd, dc, cv, sc, qf, msgf, il, lm, ss, sv, sq, fi, ssel⟩ := m2
    simp only at hq2 hs2 hc2 hv2
    subst hq2
    subst hs2
    subst hc2
    subst hv2
    simp [update, afterKey, textUpdate, keyChar]

/-- C6 witness: the theorem applied to a model with no staged files and to a
commit-mode model with the empty message. -/
theorem C6_commit_guards_witness :
    (mNoStaged.quitting = false ∧ mNoStaged.showCommit = false ∧
     mNoStaged.showSearch = false ∧ hasStagedFiles mNoStaged = false ∧
     mCommitEmpty.quitting = false ∧ mCommitEmpty.showSearch = false ∧
     mCommitEmpty.showCommit = true ∧ mCommitEmpty.commitValue = "") ∧
    update mNoStaged (.key .c) = (mNoStaged, []) ∧
    update mCommitEmpty (.key .enter) = (mCommitEmpty, []) :=
  ⟨by decide,
   (C6_commit_guards mNoStaged (by decide) (by decide) (by decide) (by decide)).1,
   (C6_commit_guards mNoStaged (by decide) (by decide) (by decide) (by decide)).2
     mCommitEmpty (by decide) (by decide) (by decide) (by decide)⟩

/-- C8 (amended): in Normal mode the "l"/"h" keys move the active panel one
step right/left along the fixed linear order Unstaged, Staged, Branches,
Stashes, saturating at the ends (no wraparound), and reset the cursor to 0;
all other fields, including the search state, are untouched. -/
theorem C8_panel_switch (m : StatusModel) (hq : m.quitting = false)
    (hc : m.showCommit = false) (hs : m.showSearch = false) :
    update m (.key .l) =
      ({ m with currentPanel := panelRight m.currentPanel, selectedIndex := 0 }, []) ∧
    update m (.key .h) =
      ({ m with currentPanel := panelLeft m.currentPanel, selectedIndex := 0 }, []) ∧
    (panelRight .unstagedPanel = .stagedPanel ∧ panelRight .stagedPanel = .branchesPanel ∧
     panelRight .branchesPanel = .stashesPanel ∧ panelRight .stashesPanel = .stashesPanel) ∧
    (panelLeft .stashesPanel = .branchesPanel ∧ panelLeft .branchesPanel = .stagedPanel ∧
     panelLeft .stagedPanel = .unstagedPanel ∧ panelLeft .unstagedPanel = .unstagedPanel) := by
  refine ⟨?_, ?_, by decide, by decide⟩ <;> simp [update, hq, hc, hs]

/-- C8 witness: the theorem applied to a Normal-mode model on the unstaged
panel. -/
theorem C8_panel_switch_witness :
    (mNoStaged.quitting = false ∧ mNoStaged.showCommit = false ∧
     mNoStaged.showSearch = false) ∧
    update mNoStaged (.key .l) =
      ({ mNoStaged with currentPanel := panelRight mNoStaged.currentPanel,
                        selectedIndex := 0 }, []) :=
  ⟨by decide, (C8_panel_switch mNoStaged (by decide) (by decide) (by decide)).1⟩

/-- C8 counterexample: on the stashes panel the "l" switch key leaves the
active panel unchanged, so the four panels are not cycled in a ring. -/
theorem C8_no_ring_cycle :
    mStashes.currentPanel = PanelType.stashesPanel ∧
    (stepM mStashes (.key .l)).currentPanel = PanelType.stashesPanel := by decide

/-- The Nat clamp used after list shrinking equals a min. -/
theorem clamp_eq_min (s n : Nat) : (if n ≤ s then n - 1 else s) = min s (n - 1) := by
  split_ifs <;> omega

/-- removeFirst agrees with find? and eraseP on the first matching entry. -/
theorem removeFirst_eq_of_find? (p : String) (l : List FileStatus) (e : FileStatus)
    (h : l.find? (fun f => f.path == p) = some e) :
    removeFirst p l = some (e, l.eraseP (fun f => f.path == p)) := by
  induction l with
  | nil => simp at h
  | cons f fs ih =>
    by_cases hf : f.path = p
    · have hb : (f.path == p) = true := by simp [hf]
      simp only [List.find?, hb] at h
      cases h
      simp [removeFirst, List.eraseP, hf, hb]
    · have hb : (f.path == p) = false := by simp [hf]
      simp only [List.find?, hb] at h
      simp only [removeFirst, if_neg hf, List.eraseP, hb, cond_false, ih h]

/-- A successful removeFirst splits the list at the first entry whose path
matches. -/
theorem removeFirst_split (p : String) (l : List FileStatus) (e : FileStatus)
    (rest : List FileStatus) (h : removeFirst p l = some (e, rest)) :
    ∃ l1 l2, l = l1 ++ e :: l2 ∧ rest = l1 ++ l2 ∧ e.path = p ∧ p ∉ pathsOf l1 := by
  induction l generalizing rest with
  | nil => simp [removeFirst] at h
  | cons f fs ih =>
    simp only [removeFirst] at h
    by_cases hf : f.path = p
    · rw [if_pos hf] at h
      simp only [Option.some.injEq, Prod.mk.injEq] at h
      obtain ⟨he, hr⟩ := h
      subst he
      subst hr
      exact ⟨[], fs, rfl, rfl, hf, by simp [pathsOf]⟩
    · rw [if_neg hf] at h
      cases hrec : removeFirst p fs with
      | none => rw [hrec] at h; cases h
      | some pr =>
        obtain ⟨e2, rest2⟩ := pr
        rw [hrec] at h
        simp only [Option.some.injEq, Prod.mk.injEq] at h
        obtain ⟨he, hr⟩ := h
        subst he
        subst hr
        obtain ⟨l1, l2, hl, hr2, hp, hn1⟩ := ih rest2 hrec
        refine ⟨f :: l1, l2, by simp [hl], by simp [hr2], hp, ?_⟩
        simp only [pathsOf, List.map_cons, List.mem_cons]
        rintro (h1 | h1)
        · exact hf h1.symm
        · exact hn1 h1


/-- A path present among the paths of a list is found by removeFirst. -/
theorem removeFirst_of_mem_paths (p : String) (l : List FileStatus)
    (hp : p ∈ pathsOf l) :
    ∃ e rest, removeFirst p l = some (e, rest) ∧ e.path = p := by
  induction l with
  | nil => simp [pathsOf] at hp
  | cons f fs ih =>
    by_cases hf : f.path = p
    · exact ⟨f, fs, by simp [removeFirst, hf], hf⟩
    · have hp2 : p ∈ pathsOf fs := by
        simp only [pathsOf, List.map_cons, List.mem_cons] at hp
        rcases hp with h1 | h1
        · exact absurd h1.symm hf
        · exact h1
      obtain ⟨e, rest, hrm, he⟩ := ih hp2
      exact ⟨e, f :: rest, by simp [removeFirst, if_neg hf, hrm], he⟩

/-- removeFirst takes the appended entry when its path does not occur in the
prefix. -/
theorem removeFirst_append_singleton (p : String) (l : List FileStatus)
    (e : FileStatus) (he : e.path = p) (hl : p ∉ pathsOf l) :
    removeFirst p (l ++ [e]) = some (e, l) := by
  induction l with
  | nil => simp [removeFirst, he]
  | cons f fs ih =>
    have hf : ¬ f.path = p := by
      simp only [pathsOf, List.map_cons, List.mem_cons] at hl
      intro hfp
      exact hl (Or.inl hfp.symm)
    have hl2 : p ∉ pathsOf fs := by
      simp only [pathsOf, List.map_cons, List.mem_cons] at hl
      intro h1
      exact hl (Or.inr h1)
    simp only [List.cons_append, removeFirst, if_neg hf, List.append_eq, ih hl2]

/-- Moving an entry out of one list and appending a same-path entry to the
other list permutes the combined path multiset, so path uniqueness over both
lists is preserved. -/
theorem nodup_paths_transfer (src dst : List FileStatus) (p : String)
    (e eNew : FileStatus) (rest : List FileStatus)
    (h : removeFirst p src = some (e, rest)) (heq : eNew.path = e.path)
    (hnd : (pathsOf src ++ pathsOf dst).Nodup) :
    (pathsOf rest ++ pathsOf (dst ++ [eNew])).Nodup := by
  obtain ⟨l1, l2, hsrc, hrest, hp, hn1⟩ := removeFirst_split p src e rest h
  subst hsrc
  subst hrest
  have hassoc : ∀ (A B : List String) (x : String), A ++ (B ++ [x]) = (A ++ B) ++ [x] := by
    intro A B x
    rw [List.append_assoc]
  have hperm : (pathsOf (l1 ++ l2) ++ pathsOf (dst ++ [eNew])).Perm
      (pathsOf (l1 ++ e :: l2) ++ pathsOf dst) := by
    simp only [pathsOf, List.map_append, List.map_cons, List.map_nil, heq,
      List.append_assoc, List.cons_append, List.nil_append]
    refine List.Perm.append_left _ ?_
    rw [hassoc]
    exact List.perm_append_singleton _ _
  exact hperm.symm.nodup hnd

/-- C4: a successful stage (resp. unstage) completion for a path found in
the unstaged (resp. staged) list performs a local move and dispatches
nothing: the first entry with that path is erased from the source list, its
staged flag flipped to the destination value, the entry appended to the end
of the destination list, and the cursor clamped to the shrunk source list's
bounds. -/
theorem C4_optimistic_move (m : StatusModel) (rs : RepoStatus)
    (hrs : m.repoStatus = some rs) :
    (∀ p e, rs.unstagedFiles.find? (fun f => f.path == p) = some e →
      update m (.fileStatusUpdateMsg p true) =
        ({ m with
            repoStatus := some { rs with
              unstagedFiles := rs.unstagedFiles.eraseP (fun f => f.path == p),
              stagedFiles :=
                rs.stagedFiles ++ [{ e with staged := true, workTree := false }] },
            selectedIndex :=
              min m.selectedIndex
                ((rs.unstagedFiles.eraseP (fun f => f.path == p)).length - 1) }, [])) ∧
    (∀ p e, rs.stagedFiles.find? (fun f => f.path == p) = some e →
      update m (.fileStatusUpdateMsg p false) =
        ({ m with
            repoStatus := some { rs with
              stagedFiles := rs.stagedFiles.eraseP (fun f => f.path == p),
              unstagedFiles :=
                rs.unstagedFiles ++ [{ e with staged := false, workTree := true }] },
            selectedIndex :=
              min m.selectedIndex
                ((rs.stagedFiles.eraseP (fun f => f.path == p)).length - 1) }, [])) := by
  constructor
  · intro p e hfind
    have hrm := removeFirst_eq_of_find? p rs.unstagedFiles e hfind
    simp only [update, handleFileStatusUpdate, hrs, hrm, clamp_eq_min]
    simp
  · intro p e hfind
    have hrm := removeFirst_eq_of_find? p rs.stagedFiles e hfind
    simp only [update, handleFileStatusUpdate, hrs, hrm, clamp_eq_min]
    simp

/-- C4 witness: staging "a.txt" out of Unstaged = [a.txt M, b.txt ?] with
Staged = [] and cursor 1 yields Unstaged = [b.txt ?], Staged = [a.txt M
staged], cursor clamped to 0, and no dispatched command. -/
theorem C4_optimistic_move_witness :
    (mScenario.repoStatus = some rsScenario ∧
     rsScenario.unstagedFiles.find? (fun f => f.path == "a.txt") = some fileA) ∧
    update mScenario (.fileStatusUpdateMsg "a.txt" true) =
      ({ mScenario with
          repoStatus := some { rsScenario with
            unstagedFiles := rsScenario.unstagedFiles.eraseP (fun f => f.path == "a.txt"),
            stagedFiles := rsScenario.stagedFiles ++
              [{ fileA with staged := true, workTree := false }] },
          selectedIndex := min mScenario.selectedIndex
            ((rsScenario.unstagedFiles.eraseP (fun f => f.path == "a.txt")).length - 1) },
       []) ∧
    (statusOr (stepM mScenario (.fileStatusUpdateMsg "a.txt" true))).unstagedFiles =
      [fileB] ∧
    (statusOr (stepM mScenario (.fileStatusUpdateMsg "a.txt" true))).stagedFiles =
      [{ path := "a.txt", status := "M", staged := true, workTree := false }] ∧
    (stepM mScenario (.fileStatusUpdateMsg "a.txt" true)).selectedIndex = 0 :=
  ⟨⟨rfl, by decide⟩,
   (C4_optimistic_move mScenario rsScenario rfl).1 "a.txt" fileA (by decide),
   by decide, by decide, by decide⟩

/-- C5: starting from a state whose unstaged and staged paths are jointly
duplicate-free, staging a path and then unstaging it returns the entry to
the unstaged list carrying its original status code and restores the staged
list; the path is never in both lists at the intermediate state, and every
optimistic move preserves joint path uniqueness. -/
theorem C5_stage_unstage_round_trip (m : StatusModel) (rs : RepoStatus) (p : String)
    (hrs : m.repoStatus = some rs)
    (hnd : (pathsOf rs.unstagedFiles ++ pathsOf rs.stagedFiles).Nodup)
    (hp : p ∈ pathsOf rs.unstagedFiles) :
    (∃ e rest, removeFirst p rs.unstagedFiles = some (e, rest) ∧ e.path = p ∧
      (statusOr (handleFileStatusUpdate (handleFileStatusUpdate m p true) p false)).unstagedFiles =
        rest ++ [{ e with staged := false, workTree := true }] ∧
      (statusOr (handleFileStatusUpdate (handleFileStatusUpdate m p true) p false)).stagedFiles =
        rs.stagedFiles) ∧
    ¬ (p ∈ pathsOf (statusOr (handleFileStatusUpdate m p true)).unstagedFiles ∧
       p ∈ pathsOf (statusOr (handleFileStatusUpdate m p true)).stagedFiles) ∧
    (∀ (m2 : StatusModel) (rs2 rs3 : RepoStatus) (q : String) (st : Bool),
      m2.repoStatus = some rs2 →
      (pathsOf rs2.unstagedFiles ++ pathsOf rs2.stagedFiles).Nodup →
      (handleFileStatusUpdate m2 q st).repoStatus = some rs3 →
      (pathsOf rs3.unstagedFiles ++ pathsOf rs3.stagedFiles).Nodup) := by
  obtain ⟨e, rest, hrm, hep⟩ := removeFirst_of_mem_paths p rs.unstagedFiles hp
  rw [List.nodup_append] at hnd
  obtain ⟨hndU, hndS, hdisj⟩ := hnd
  have hpS : p ∉ pathsOf rs.stagedFiles := hdisj hp
  obtain ⟨l1, l2, hsplit, hrestEq, _, hnl1⟩ := removeFirst_split p rs.unstagedFiles e rest hrm
  have hpRest : p ∉ pathsOf rest := by
    rw [hsplit] at hndU
    simp only [pathsOf, List.map_append, List.map_cons] at hndU
    rw [List.nodup_append] at hndU
    obtain ⟨-, hndC, hdisj2⟩ := hndU
    rw [List.nodup_cons] at hndC
    rw [hrestEq]
    simp only [pathsOf, List.map_append, List.mem_append]
    rintro (hin | hin)
    · exact hnl1 (by simpa [pathsOf] using hin)
    · exact hndC.1 (by rw [hep]; exact hin)
  set m1 : StatusModel := handleFileStatusUpdate m p true with hm1def
  have h1status : m1.repoStatus =
      some { rs with
        unstagedFiles := rest,
        stagedFiles := rs.stagedFiles ++ [{ e with staged := true, workTree := false }] } := by
    rw [hm1def]
    simp [handleFileStatusUpdate, hrs, hrm]
  have hrm2 : removeFirst p
      (rs.stagedFiles ++ [{ e with staged := true, workTree := false }]) =
      some ({ e with staged := true, workTree := false }, rs.stagedFiles) :=
    removeFirst_append_singleton p rs.stagedFiles _ hep hpS
  have h2status : (handleFileStatusUpdate m1 p false).repoStatus =
      some { rs with
        unstagedFiles := rest ++ [{ e with staged := false, workTree := true }] } := by
    conv_lhs => rw [handleFileStatusUpdate]
    rw [h1status]
    simp [hrm2]
  refine ⟨⟨e, rest, hrm, hep, ?_, ?_⟩, ?_, ?_⟩
  · simp [statusOr, h2status]
  · simp [statusOr, h2status]
  · rintro ⟨hin, -⟩
    rw [show (statusOr m1).unstagedFiles = rest from by
      simp [statusOr, h1status]] at hin
    exact hpRest hin
  · intro m2 rs2 rs3 q st h2 hnd2 h3
    cases st with
    | true =>
      cases hrm3 : removeFirst q rs2.unstagedFiles with
      | none =>
        simp [handleFileStatusUpdate, h2, hrm3] at h3
        subst h3
        exact hnd2
      | some pr =>
        obtain ⟨e4, rest4⟩ := pr
        simp [handleFileStatusUpdate, h2, hrm3] at h3
        subst h3
        exact nodup_paths_transfer rs2.unstagedFiles rs2.stagedFiles q e4
          { e4 with staged := true, workTree := false } rest4 hrm3 rfl hnd2
    | false =>
      cases hrm3 : removeFirst q rs2.stagedFiles with
      | none =>
        simp [handleFileStatusUpdate, h2, hrm3] at h3
        subst h3
        exact hnd2
      | some pr =>
        obtain ⟨e4, rest4⟩ := pr
        simp [handleFileStatusUpdate, h2, hrm3] at h3
        subst h3
        have hflip : (pathsOf rs2.stagedFiles ++ pathsOf rs2.unstagedFiles).Nodup :=
          List.perm_append_comm.nodup hnd2
        have htr := nodup_paths_transfer rs2.stagedFiles rs2.unstagedFiles q e4
          { e4 with staged := false, workTree := true } rest4 hrm3 rfl hflip
        exact List.perm_append_comm.nodup htr

/-- C5 witness: the theorem applied to the snapshot with unstaged x.go, y.go
and staged z.go, round-tripping x.go: it returns to the end of the unstaged
list with its original status "M", never sitting in both lists. -/
theorem C5_stage_unstage_round_trip_witness :
    ((pathsOf rsRound.unstagedFiles ++ pathsOf rsRound.stagedFiles).Nodup ∧
     "x.go" ∈ pathsOf rsRound.unstagedFiles) ∧
    ¬ ("x.go" ∈ pathsOf (statusOr (handleFileStatusUpdate mRound "x.go" true)).unstagedFiles ∧
       "x.go" ∈ pathsOf (statusOr (handleFileStatusUpdate mRound "x.go" true)).stagedFiles) ∧
    (statusOr (handleFileStatusUpdate (handleFileStatusUpdate mRound "x.go" true)
        "x.go" false)).unstagedFiles =
      [{ path := "y.go", status := "?", staged := false, workTree := true },
       { path := "x.go", status := "M", staged := false, workTree := true }] ∧
    (statusOr (handleFileStatusUpdate (handleFileStatusUpdate mRound "x.go" true)
        "x.go" false)).stagedFiles = rsRound.stagedFiles :=
  ⟨by decide,
   (C5_stage_unstage_round_trip mRound rsRound "x.go" rfl (by decide) (by decide)).2.1,
   by decide, by decide⟩

/-- C7 (amended): failing stage, unstage, discard, stash-delete, commit,
push and branch-switch calls produce an error event; consuming an error
event sets the transient message and schedules a refresh; every status
completion clears the loading flag.  However a failing status refresh
yields a nil-status event and a failing stage-all a plain refresh event
(neither produces a message), and a failing diff fetch renders the error
text as diff content rather than a status message. -/
theorem C7_gateway_errors :
    (∀ (m : StatusModel) (e : String),
      update m (.errMsg e) = ({ m with message := e }, [Cmd.refreshStatus])) ∧
    (∀ (m : StatusModel) (rs : Option RepoStatus),
      (update m (.statusMsg rs)).1.isLoading = false) ∧
    (∀ e, performCommit (.fail e) = Msg.errMsg ("commit failed: " ++ e)) ∧
    (∀ e, pushChanges (.fail e) = Msg.errMsg ("push failed: " ++ e)) ∧
    (∀ e, switchBranch (.fail e) = Msg.errMsg ("failed to switch branch: " ++ e)) ∧
    (∀ (m : StatusModel) (rs : RepoStatus) (e : String), m.repoStatus = some rs →
      m.currentPanel = PanelType.unstagedPanel →
      m.selectedIndex < rs.unstagedFiles.length →
      stageFile m (.fail e) = some (Msg.errMsg ("failed to stage file: " ++ e)) ∧
      discardChanges m (.fail e) = Msg.errMsg ("failed to discard changes: " ++ e) ∧
      showFileDiff m (.fail e) "" = Msg.diffMsg ("Error getting diff: " ++ e)) ∧
    (∀ (m : StatusModel) (rs : RepoStatus) (e : String), m.repoStatus = some rs →
      m.currentPanel = PanelType.stagedPanel →
      m.selectedIndex < rs.stagedFiles.length →
      unstageFile m (.fail e) = some (Msg.errMsg ("failed to unstage file: " ++ e))) ∧
    (∀ (m : StatusModel) (rs : RepoStatus) (e : String), m.repoStatus = some rs →
      m.currentPanel = PanelType.stashesPanel →
      m.selectedIndex < rs.stashes.length →
      deleteStash m (.fail e) = some (Msg.errMsg ("failed to delete stash: " ++ e))) ∧
    (∀ (e : String) (fetched : RepoStatus), stageAllFiles (.fail e) = Msg.refreshMsg ∧
      refreshStatus (.fail e) fetched = Msg.statusMsg none) := by
  refine ⟨fun m e => rfl, fun m rs => ?_, fun e => rfl, fun e => rfl, fun e => rfl,
    ?_, ?_, ?_, fun e fetched => ⟨rfl, rfl⟩⟩
  · simp only [update]
    split <;> rfl
  · intro m rs e hrs hpanel hsel
    have hle : ¬ (rs.unstagedFiles.length ≤ m.selectedIndex) := Nat.not_le.mpr hsel
    have hget : rs.unstagedFiles[m.selectedIndex]? =
        some (rs.unstagedFiles[m.selectedIndex]) := List.getElem?_eq_getElem hsel
    refine ⟨?_, ?_, ?_⟩
    · simp [stageFile, hrs, hpanel, hle, hget]
    · simp [discardChanges, hrs, hpanel, hle]
    · simp [showFileDiff, hrs, hpanel, hsel]
  · intro m rs e hrs hpanel hsel
    have hle : ¬ (rs.stagedFiles.length ≤ m.selectedIndex) := Nat.not_le.mpr hsel
    have hget : rs.stagedFiles[m.selectedIndex]? =
        some (rs.stagedFiles[m.selectedIndex]) := List.getElem?_eq_getElem hsel
    simp [unstageFile, hrs, hpanel, hle, hget]
  · intro m rs e hrs hpanel hsel
    have hle : ¬ (rs.stashes.length ≤ m.selectedIndex) := Nat.not_le.mpr hsel
    simp [deleteStash, hrs, hpanel, hle]

/-- C7 witness: the theorem applied to a failing stage of the selected
unstaged file, and to the error event it produces. -/
theorem C7_gateway_errors_witness :
    (mNoStaged.repoStatus = some rsTwo ∧
     mNoStaged.currentPanel = PanelType.unstagedPanel ∧
     mNoStaged.selectedIndex < rsTwo.unstagedFiles.length) ∧
    stageFile mNoStaged (.fail "no perms") =
      some (Msg.errMsg ("failed to stage file: " ++ "no perms")) ∧
    update mNoStaged (.errMsg "failed to stage file: no perms") =
      ({ mNoStaged with message := "failed to stage file: no perms" },
       [Cmd.refreshStatus]) :=
  ⟨by decide,
   (C7_gateway_errors.2.2.2.2.2.1 mNoStaged rsTwo "no perms" rfl rfl (by decide)).1,
   C7_gateway_errors.1 mNoStaged "failed to stage file: no perms"⟩

/-- C7 counterexample: a failing stage-all produces a plain refresh event
and a failing refresh a nil-status event; processing them never sets the
transient message, so not every failing gateway call is converted into a
transient status message. -/
theorem C7_stage_all_error_cex :
    stageAllFiles (.fail "boom") = Msg.refreshMsg ∧
    refreshStatus (.fail "boom") rsTwo = Msg.statusMsg none ∧
    mNoStaged.message = "" ∧
    (stepM (stepM mNoStaged Msg.refreshMsg) (Msg.statusMsg none)).message = "" := by
  decide

/-- C9 (code-bug exhibit): after loading two unstaged files, searching "b",
staging the match from search (the dispatched command succeeds) and then
confirming the stale search selection, the cursor is 1 while the active
unstaged list has length 1 — the cursor invariant is violated.  The last
two conjuncts show the injected completion event is exactly what the
dispatched command produces on gateway success. -/
theorem C9_stale_search_cursor :
    staleFinal.currentPanel = PanelType.unstagedPanel ∧
    (statusOr staleFinal).unstagedFiles.length = 1 ∧
    staleFinal.selectedIndex = 1 ∧
    (update staleBeforePlus (.key .plus)).2 = [Cmd.stageFileFromSearch] ∧
    stageFileFromSearch ((staleTrace.take 4).foldl stepM NewStatusModel) GitResult.ok =
      some (Msg.fileStatusUpdateMsg "b" true) := by
  decide

end Cgit
